import Mathlib

/-!
Verification of `Calculate_IP_ranges_after_exclusion.cpp`.

Shallow embedding: `uint32_t` values are `Nat` with explicit `% 2 ^ 32`
where overflow matters; the C++ `~x` on `uint32_t` is `0xFFFFFFFF ^^^ x`;
the `int prefix` field only ever holds values obtained from parsing and
from the loop counter `p ∈ [prefix+1, 32]`, all nonnegative, so it is a
`Nat` (named `prefixLen` here). Lists model `std::vector`.
-/

namespace IPRanges

structure IPNetwork where
  network : Nat
  prefixLen : Nat
  deriving DecidableEq, Repr

/-- Mask with the top `p` bits set, as a 32-bit value:
`(prefix == 0) ? 0 : (0xFFFFFFFFU << (32 - prefix))`. -/
def maskOf (p : Nat) : Nat :=
  if p = 0 then 0 else (0xFFFFFFFF <<< (32 - p)) % 2 ^ 32

/-- `IPNetwork::getMask`. -/
def IPNetwork.getMask (a : IPNetwork) : Nat := maskOf a.prefixLen

/-- `IPNetwork::getBroadcast`: `network | ~mask`. -/
def IPNetwork.getBroadcast (a : IPNetwork) : Nat :=
  a.network ||| (0xFFFFFFFF ^^^ a.getMask)

/-- `IPNetwork::overlaps`: the three `==` tests joined by `||`, written as
one decided disjunction (same boolean value; the source's `||` is pure). -/
def IPNetwork.overlaps (a b : IPNetwork) : Bool :=
  let mask1 := a.getMask
  let mask2 := b.getMask
  decide ((a.network &&& mask1) = (b.network &&& mask2)
    ∨ (a.network &&& mask2) = (b.network &&& mask2)
    ∨ (b.network &&& mask1) = (a.network &&& mask1))

/-- The `for (int p = prefix + 1; p <= 32; ++p)` loop body of
`IPNetwork::addressExclude`, iterated over the list of values of `p`,
carrying the `result` vector; `if (result.size() >= 2) break;` is the
early return at the end of each iteration. -/
def IPNetwork.excludeLoop (self exc : IPNetwork) :
    List Nat → List IPNetwork → List IPNetwork
  | [], result => result
  | p :: ps, result =>
    let subMask := if p = 0 then 0 else (0xFFFFFFFF <<< (32 - p)) % 2 ^ 32
    let subnet1 := self.network &&& subMask
    let subnet2 := subnet1 ||| (0xFFFFFFFF ^^^ subMask)
    let net1 : IPNetwork := ⟨subnet1, p⟩
    let net2 : IPNetwork := ⟨subnet2, p⟩
    let result1 := if ! net1.overlaps exc then result ++ [net1] else result
    let result2 := if ! net2.overlaps exc then result1 ++ [net2] else result1
    if result2.length ≥ 2 then result2
    else excludeLoop self exc ps result2

/-- `IPNetwork::addressExclude`. The two `!=` tests at the top of the
source are the same comparison written twice (nested `if`s with identical
conditions); control reaches the loop exactly when that comparison is an
equality, so the nested `if`s are modelled by the conjunction below. -/
def IPNetwork.addressExclude (self exc : IPNetwork) : List IPNetwork :=
  let mask := self.getMask
  if (self.network &&& mask) ≠ (exc.network &&& mask) ∧
      (exc.network &&& mask) ≠ (self.network &&& mask) then
    [self]
  else
    let result :=
      self.excludeLoop exc (List.range' (self.prefixLen + 1) (32 - self.prefixLen)) []
    if result.isEmpty then [self] else result

/-! Parsing.  `parseIP` uses `sscanf(ip, "%d.%d.%d.%d", ...)` with the
four `int` slots zero-initialised and the return value ignored: `sscanf`
assigns the slots left to right and stops at the first mismatch, leaving
the remaining slots 0.  The model below reproduces that behaviour for
inputs made of decimal digits and separator characters (no whitespace and
no sign characters, which none of the inputs of interest contain). -/

/-- Greedily read leading decimal digits, returning the value and the
rest of the input. -/
def readDigitsAux (acc : Nat) : List Char → Nat × List Char
  | [] => (acc, [])
  | c :: t =>
    if c.isDigit then readDigitsAux (acc * 10 + (c.toNat - 48)) t
    else (acc, c :: t)

/-- One `%d` conversion (digit-only inputs): fails when no leading digit. -/
def readDecimal (s : List Char) : Option (Nat × List Char) :=
  match s with
  | [] => none
  | c :: _ => if c.isDigit then some (readDigitsAux 0 s) else none

/-- The four slots of `sscanf(ip, "%d.%d.%d.%d", ...)`; a slot that is
never assigned keeps its initial value 0, matching `int parts[4] = {0}`. -/
def scanIPParts (s : List Char) : Nat × Nat × Nat × Nat :=
  match readDecimal s with
  | none => (0, 0, 0, 0)
  | some (a, r1) =>
    match r1 with
    | '.' :: r2 =>
      match readDecimal r2 with
      | none => (a, 0, 0, 0)
      | some (b, r3) =>
        match r3 with
        | '.' :: r4 =>
          match readDecimal r4 with
          | none => (a, b, 0, 0)
          | some (c, r5) =>
            match r5 with
            | '.' :: r6 =>
              match readDecimal r6 with
              | none => (a, b, c, 0)
              | some (d, _) => (a, b, c, d)
            | _ => (a, b, c, 0)
        | _ => (a, b, 0, 0)
    | _ => (a, 0, 0, 0)

/-- `IPNetwork::parseIP`: `(parts[0] << 24) | (parts[1] << 16) |
(parts[2] << 8) | parts[3]` assigned to `uint32_t`. -/
def IPNetwork.parseIP (s : List Char) : Nat :=
  let parts := scanIPParts s
  ((parts.1 <<< 24) ||| (parts.2.1 <<< 16) ||| (parts.2.2.1 <<< 8) ||| parts.2.2.2) % 2 ^ 32

/-- Split a string at its first `'/'` (`cidr.find('/')` plus the two
`substr` calls): `none` when there is no slash. -/
def splitSlash : List Char → Option (List Char × List Char)
  | [] => none
  | c :: t =>
    if c = '/' then some ([], t)
    else (splitSlash t).map (fun ab => (c :: ab.1, ab.2))

/-- `std::stoi` restricted to inputs with leading decimal digits (all
inputs of interest); trailing non-digit characters are ignored, as by
`stoi`. -/
def stoiNat (s : List Char) : Nat :=
  match readDecimal s with
  | some (v, _) => v
  | none => 0

/-- `IPNetwork::fromCIDR`. -/
def IPNetwork.fromCIDR (s : List Char) : IPNetwork :=
  match splitSlash s with
  | some (ipPart, suffix) =>
    let prefixLen := stoiNat suffix
    let ip := parseIP ipPart
    let mask := if prefixLen = 0 then 0 else (0xFFFFFFFF <<< (32 - prefixLen)) % 2 ^ 32
    ⟨ip &&& mask, prefixLen⟩
  | none => ⟨parseIP s, 32⟩

/-! The driver in `main`: one exclude applied to the working set, the
fold over the exclude list, and the final `std::sort` + `std::unique`. -/

/-- The inner `for (const auto& y : result)` loop of `main` for one
exclude `n`: `y` is replaced by `y.addressExclude(n)` when `y.overlaps(n)`
and kept otherwise, appending in order. -/
def applyExclude (n : IPNetwork) : List IPNetwork → List IPNetwork
  | [] => []
  | y :: t => (if y.overlaps n then y.addressExclude n else [y]) ++ applyExclude n t

/-- `IPNetwork::operator<`: ascending `network`, then ascending `prefix`. -/
def ltIP (a b : IPNetwork) : Bool :=
  if a.network ≠ b.network then decide (a.network < b.network)
  else decide (a.prefixLen < b.prefixLen)

/-- Insert into a list sorted by `operator<`. -/
def insertNet (a : IPNetwork) : List IPNetwork → List IPNetwork
  | [] => [a]
  | b :: t => if ltIP b a then b :: insertNet a t else a :: b :: t

/-- `std::sort(result.begin(), result.end())` with `operator<`: since the
comparator is a strict total order whose ties are structurally equal
elements, the sorted permutation is unique, so insertion sort computes
exactly the vector `std::sort` produces. -/
def sortNets (l : List IPNetwork) : List IPNetwork := l.foldr insertNet []

/-- Helper for `std::unique`: drop elements equal to the previous kept
element. -/
def dedupAdjAux (prev : IPNetwork) : List IPNetwork → List IPNetwork
  | [] => []
  | b :: t => if b = prev then dedupAdjAux prev t else b :: dedupAdjAux b t

/-- `result.erase(std::unique(...), result.end())`: remove consecutive
duplicates, keeping the first element of each run. -/
def dedupAdj : List IPNetwork → List IPNetwork
  | [] => []
  | a :: t => a :: dedupAdjAux a t

/-- The exclusion folds of `main`: seed the working set with `start`,
then apply each exclude in order. -/
def runExcludes (start : IPNetwork) (excludes : List IPNetwork) : List IPNetwork :=
  excludes.foldl (fun w n => applyExclude n w) [start]

/-- The whole pipeline of `main` up to printing: run the excludes, sort,
deduplicate. -/
def pipeline (start : IPNetwork) (excludes : List IPNetwork) : List IPNetwork :=
  dedupAdj (sortNets (runExcludes start excludes))

/-- The invariant of spec §3: host bits below the prefix are zero
(`network & getMask() == network`). -/
def canonicalIP (a : IPNetwork) : Prop :=
  a.network &&& a.getMask = a.network

/-- Containment as the spec defines it (§3): `A contains B iff
prefix(A) ≤ prefix(B) and base(B) & mask(A) == base(A)`. -/
def containsSpec (a b : IPNetwork) : Prop :=
  a.prefixLen ≤ b.prefixLen ∧ b.network &&& a.getMask = a.network

instance (a : IPNetwork) : Decidable (canonicalIP a) := by
  unfold canonicalIP; infer_instance

instance (a b : IPNetwork) : Decidable (containsSpec a b) := by
  unfold containsSpec; infer_instance

/-! Mask arithmetic. -/

/-- A coarser mask absorbs a finer one: for prefixes in range,
`maskOf p &&& maskOf q = maskOf p` when `p ≤ q`. -/
theorem maskOf_and_maskOf {p q : Nat} (hp : p ≤ 32) (hq : q ≤ 32) (hpq : p ≤ q) :
    maskOf p &&& maskOf q = maskOf p := by
  have h : ∀ p < 33, ∀ q < 33, p ≤ q → maskOf p &&& maskOf q = maskOf p := by decide
  exact h p (by omega) q (by omega) hpq

/-! The comparator `operator<` and its arithmetic characterisation. -/

theorem ltIP_eq_true_iff {a b : IPNetwork} :
    ltIP a b = true ↔
      a.network < b.network ∨ (a.network = b.network ∧ a.prefixLen < b.prefixLen) := by
  unfold ltIP
  by_cases h : a.network = b.network <;> simp [h]

theorem ltIP_eq_false_iff {a b : IPNetwork} :
    ltIP a b = false ↔
      b.network < a.network ∨ (a.network = b.network ∧ b.prefixLen ≤ a.prefixLen) := by
  rw [← Bool.not_eq_true, ltIP_eq_true_iff]
  constructor
  · intro h; omega
  · intro h; omega

/-- Structural equality of `IPNetwork` values is fieldwise equality. -/
theorem ipnetwork_eq_iff {a b : IPNetwork} :
    a = b ↔ a.network = b.network ∧ a.prefixLen = b.prefixLen := by
  cases a; cases b; simp

/-- `Le a b` means `¬ (b < a)` for the comparator, the relation the
sorted vector satisfies between adjacent elements. -/
def LeN (a b : IPNetwork) : Prop := ltIP b a = false

/-- `Lt a b` means `a < b` for the comparator. -/
def LtN (a b : IPNetwork) : Prop := ltIP a b = true

theorem LeN_trans {a b c : IPNetwork} (h1 : LeN a b) (h2 : LeN b c) : LeN a c := by
  unfold LeN at *
  rw [ltIP_eq_false_iff] at *
  omega

theorem LtN_trans {a b c : IPNetwork} (h1 : LtN a b) (h2 : LtN b c) : LtN a c := by
  unfold LtN at *
  rw [ltIP_eq_true_iff] at *
  omega

theorem LeN_of_ltIP {a b : IPNetwork} (h : ltIP a b = true) : LeN a b := by
  unfold LeN
  rw [ltIP_eq_true_iff] at h
  rw [ltIP_eq_false_iff]
  omega

theorem LtN_of_LeN_ne {a b : IPNetwork} (h1 : LeN a b) (h2 : a ≠ b) : LtN a b := by
  unfold LeN at h1
  unfold LtN
  rw [ltIP_eq_false_iff] at h1
  rw [ltIP_eq_true_iff]
  have h3 : ¬(a.network = b.network ∧ a.prefixLen = b.prefixLen) :=
    fun hc => h2 (ipnetwork_eq_iff.mpr hc)
  omega

theorem LtN_of_LtN_of_LeN {a b c : IPNetwork} (h1 : LtN a b) (h2 : LeN b c) : LtN a c := by
  unfold LtN at *
  unfold LeN at h2
  rw [ltIP_eq_true_iff] at *
  rw [ltIP_eq_false_iff] at h2
  omega

/-! Sortedness of the insertion sort modelling `std::sort`. -/

theorem mem_insertNet {x a : IPNetwork} {l : List IPNetwork}
    (h : x ∈ insertNet a l) : x = a ∨ x ∈ l := by
  induction l with
  | nil =>
    simp [insertNet] at h
    exact Or.inl h
  | cons b t ih =>
    unfold insertNet at h
    by_cases hb : ltIP b a = true
    · rw [if_pos hb] at h
      rcases List.mem_cons.mp h with rfl | h
      · exact Or.inr (List.mem_cons_self _ _)
      · rcases ih h with h | h
        · exact Or.inl h
        · exact Or.inr (List.mem_cons_of_mem _ h)
    · rw [if_neg hb] at h
      rcases List.mem_cons.mp h with rfl | h
      · exact Or.inl rfl
      · exact Or.inr h

theorem pairwise_insertNet {a : IPNetwork} {l : List IPNetwork}
    (h : l.Pairwise LeN) : (insertNet a l).Pairwise LeN := by
  induction l with
  | nil => simp [insertNet]
  | cons b t ih =>
    rcases List.pairwise_cons.mp h with ⟨hb, ht⟩
    unfold insertNet
    by_cases hba : ltIP b a = true
    · rw [if_pos hba]
      refine List.pairwise_cons.mpr ⟨?_, ih ht⟩
      intro x hx
      rcases mem_insertNet hx with rfl | hx
      · exact LeN_of_ltIP hba
      · exact hb x hx
    · rw [if_neg hba]
      refine List.pairwise_cons.mpr ⟨?_, h⟩
      intro x hx
      have hab : LeN a b := Bool.eq_false_iff.mpr hba
      rcases List.mem_cons.mp hx with rfl | hx
      · exact hab
      · exact LeN_trans hab (hb x hx)

theorem sortNets_pairwise (l : List IPNetwork) : (sortNets l).Pairwise LeN := by
  induction l with
  | nil => simp [sortNets]
  | cons a t ih => exact pairwise_insertNet ih

/-! The deduplication pass `std::unique`. -/

theorem mem_dedupAdjAux {x p : IPNetwork} {t : List IPNetwork}
    (h : x ∈ dedupAdjAux p t) : x ∈ t := by
  induction t generalizing p with
  | nil => exact absurd h (by simp [dedupAdjAux])
  | cons b t ih =>
    unfold dedupAdjAux at h
    by_cases hb : b = p
    · rw [if_pos hb] at h
      exact List.mem_cons_of_mem _ (ih h)
    · rw [if_neg hb] at h
      rcases List.mem_cons.mp h with rfl | h
      · exact List.mem_cons_self _ _
      · exact List.mem_cons_of_mem _ (ih h)

theorem dedupAdjAux_good {p : IPNetwork} {t : List IPNetwork}
    (hp : ∀ x ∈ t, LeN p x) (ht : t.Pairwise LeN) :
    (dedupAdjAux p t).Pairwise LtN ∧ ∀ x ∈ dedupAdjAux p t, LtN p x := by
  induction t generalizing p with
  | nil => simp [dedupAdjAux]
  | cons b t ih =>
    rcases List.pairwise_cons.mp ht with ⟨hbt, ht'⟩
    have hpb : LeN p b := hp b (List.mem_cons_self _ _)
    have hpt : ∀ x ∈ t, LeN p x := fun x hx => hp x (List.mem_cons_of_mem _ hx)
    unfold dedupAdjAux
    by_cases hb : b = p
    · rw [if_pos hb]
      subst hb
      exact ih hpt ht'
    · rw [if_neg hb]
      have hlt : LtN p b := LtN_of_LeN_ne hpb (fun h => hb h.symm)
      rcases ih hbt ht' with ⟨haux, hmem⟩
      refine ⟨List.pairwise_cons.mpr ⟨hmem, haux⟩, ?_⟩
      intro x hx
      rcases List.mem_cons.mp hx with rfl | hx
      · exact hlt
      · exact LtN_trans hlt (hmem x hx)

theorem dedupAdj_pairwise {l : List IPNetwork}
    (h : l.Pairwise LeN) : (dedupAdj l).Pairwise LtN := by
  cases l with
  | nil => simp [dedupAdj]
  | cons a t =>
    rcases List.pairwise_cons.mp h with ⟨ha, ht⟩
    rcases dedupAdjAux_good ha ht with ⟨haux, hmem⟩
    exact List.pairwise_cons.mpr ⟨hmem, haux⟩

theorem pipeline_pairwise_LtN (s : IPNetwork) (e : List IPNetwork) :
    (pipeline s e).Pairwise LtN :=
  dedupAdj_pairwise (sortNets_pairwise (runExcludes s e))

/-! The claims. -/

/-- C1: scenario S2 from the spec claims that start `10.0.0.0/24` with
the single exclude `10.0.0.128/25` produces exactly `[10.0.0.0/25]`.
The code actually produces the two-element list
`[10.0.0.0/25, 10.0.0.127/25]` (the second entry is the value
`subnet1 | ~subMask` pushed by the split loop, a network value with all
host bits set), so the claimed output is wrong on the code. -/
theorem c1_s2_pipeline_eval :
    pipeline (IPNetwork.fromCIDR "10.0.0.0/24".data)
        [IPNetwork.fromCIDR "10.0.0.128/25".data]
      = [⟨167772160, 25⟩, ⟨167772287, 25⟩] ∧
    pipeline (IPNetwork.fromCIDR "10.0.0.0/24".data)
        [IPNetwork.fromCIDR "10.0.0.128/25".data]
      ≠ [⟨167772160, 25⟩] := by decide

/-- C2: the claim says `|addressExclude(C, E)| = prefix(E) - prefix(C)`
for `E ⊊ C`. For `C = 10.0.0.0/24`, `E = 10.0.0.128/25` (a strict
sub-network: containment holds and the prefix difference is 1) the code
returns a list of length 2, not 1. -/
theorem c2_kernel_size_eval :
    containsSpec ⟨167772160, 24⟩ ⟨167772288, 25⟩ ∧
    (24 : Nat) < 25 ∧
    ((⟨167772160, 24⟩ : IPNetwork).addressExclude ⟨167772288, 25⟩).length = 2 := by decide

/-- C3: the claim says `addressExclude(C, C) = []` and that scenario S3
prints an empty line. In the code the split loop pushes nothing (every
candidate subnet overlaps `C` itself), and the final
`if (result.empty()) result.push_back(*this)` then returns `[C]`; the S3
pipeline therefore outputs `10.0.0.0/24`, not an empty list. -/
theorem c3_self_exclude_eval :
    (⟨167772160, 24⟩ : IPNetwork).addressExclude ⟨167772160, 24⟩ = [⟨167772160, 24⟩] ∧
    pipeline (IPNetwork.fromCIDR "10.0.0.0/24".data)
        [IPNetwork.fromCIDR "10.0.0.0/24".data]
      = [⟨167772160, 24⟩] := by decide

/-- C4: the claim says every network produced by `addressExclude` has its
host bits zero (`network & getMask() == network`). The list returned for
`C = 10.0.0.0/24`, `E = 10.0.0.128/25` contains `⟨10.0.0.127, 25⟩`, whose
host bits are all ones: the invariant fails on it. -/
theorem c4_canonical_violation_eval :
    (⟨167772287, 25⟩ : IPNetwork) ∈
      (⟨167772160, 24⟩ : IPNetwork).addressExclude ⟨167772288, 25⟩ ∧
    ¬ canonicalIP ⟨167772287, 25⟩ := by decide

/-- C5: the claim says a working-set member `Y` strictly contained in the
exclude `X` is dropped entirely, and that scenario S6 produces empty
output. In the code `addressExclude(Y, X)` hits the early
`(network & mask) != (exclude.network & mask)` test (the exclude's base
masked by `Y`'s own mask differs from `Y`'s base) and returns `[Y]`
unchanged, so `Y = 10.1.0.0/16` survives the exclude `X = 10.0.0.0/8`;
the S6 pipeline outputs `[10.0.0.0/16, 10.0.255.255/16]`, not `[]`. -/
theorem c5_containing_exclude_eval :
    containsSpec ⟨167772160, 8⟩ ⟨167837696, 16⟩ ∧
    (⟨167772160, 8⟩ : IPNetwork) ≠ ⟨167837696, 16⟩ ∧
    applyExclude ⟨167772160, 8⟩ [⟨167837696, 16⟩] = [⟨167837696, 16⟩] ∧
    pipeline (IPNetwork.fromCIDR "10.0.0.0/8".data)
        [IPNetwork.fromCIDR "10.0.0.0/8".data, IPNetwork.fromCIDR "10.1.0.0/16".data]
      = [⟨167772160, 16⟩, ⟨167837695, 16⟩] := by decide

/-- C6: for canonical networks (host bits zero, prefix in range) the
boolean `overlaps` of the code holds exactly when one network contains
the other in the sense of the spec (`prefix(A) ≤ prefix(B)` and
`base(B) & mask(A) == base(A)`, in either direction); overlap is not mere
equality of network addresses. -/
theorem c6_overlaps_iff_containment (a b : IPNetwork)
    (hpa : a.prefixLen ≤ 32) (hpb : b.prefixLen ≤ 32)
    (hca : canonicalIP a) (hcb : canonicalIP b) :
    a.overlaps b = true ↔ (containsSpec a b ∨ containsSpec b a) := by
  unfold canonicalIP IPNetwork.getMask at hca hcb
  unfold IPNetwork.overlaps containsSpec IPNetwork.getMask
  simp only [decide_eq_true_eq]
  constructor
  · rintro (h1 | h2 | h3)
    · rw [hca, hcb] at h1
      rcases Nat.le_total a.prefixLen b.prefixLen with hle | hle
      · refine Or.inl ⟨hle, ?_⟩
        rw [h1] at hca ⊢
        exact hca
      · refine Or.inr ⟨hle, ?_⟩
        rw [← h1] at hcb ⊢
        exact hcb
    · rw [hcb] at h2
      rcases Nat.le_total a.prefixLen b.prefixLen with hle | hle
      · refine Or.inl ⟨hle, ?_⟩
        rw [← h2, Nat.land_assoc,
          Nat.land_comm (maskOf b.prefixLen) (maskOf a.prefixLen),
          maskOf_and_maskOf hpa hpb hle, hca]
      · exact Or.inr ⟨hle, h2⟩
    · rw [hca] at h3
      rcases Nat.le_total a.prefixLen b.prefixLen with hle | hle
      · exact Or.inl ⟨hle, h3⟩
      · refine Or.inr ⟨hle, ?_⟩
        rw [← h3, Nat.land_assoc,
          Nat.land_comm (maskOf a.prefixLen) (maskOf b.prefixLen),
          maskOf_and_maskOf hpb hpa hle, hcb]
  · rintro (⟨hle, heq⟩ | ⟨hle, heq⟩)
    · refine Or.inr (Or.inr ?_)
      rw [hca]
      exact heq
    · refine Or.inr (Or.inl ?_)
      rw [hcb]
      exact heq

/-- Witness for C6 at `A = 10.0.0.0/8`, `B = 10.1.0.0/16`. -/
theorem c6_overlaps_iff_containment_witness :
    (⟨167772160, 8⟩ : IPNetwork).overlaps ⟨167837696, 16⟩ = true ↔
      (containsSpec ⟨167772160, 8⟩ ⟨167837696, 16⟩ ∨
        containsSpec ⟨167837696, 16⟩ ⟨167772160, 8⟩) :=
  c6_overlaps_iff_containment ⟨167772160, 8⟩ ⟨167837696, 16⟩
    (by decide) (by decide) (by decide) (by decide)

/-- C7: an exclude that does not overlap the start passes the start
through untouched: the pipeline on `S` with excludes `[X]` returns
exactly `[S]` whenever `overlaps(S, X)` is false. -/
theorem c7_disjoint_exclude_noop (s x : IPNetwork) (h : s.overlaps x = false) :
    pipeline s [x] = [s] := by
  simp [pipeline, runExcludes, applyExclude, h, sortNets, insertNet, dedupAdj, dedupAdjAux]

/-- Witness for C7: scenario S5, start `10.0.0.0/8`, exclude
`192.168.0.0/16`, output `[10.0.0.0/8]`. -/
theorem c7_disjoint_exclude_noop_witness :
    pipeline ⟨167772160, 8⟩ [⟨3232235520, 16⟩] = [⟨167772160, 8⟩] :=
  c7_disjoint_exclude_noop ⟨167772160, 8⟩ ⟨3232235520, 16⟩ (by decide)

/-- C8: for every start and exclude list, the final output of the
pipeline is strictly increasing in `(network, prefix)` lexicographic
order — hence sorted ascending with no two equal entries. -/
theorem c8_output_sorted_dedup (s : IPNetwork) (e : List IPNetwork) :
    (pipeline s e).Pairwise
      (fun a b => a.network < b.network ∨
        (a.network = b.network ∧ a.prefixLen < b.prefixLen)) :=
  (pipeline_pairwise_LtN s e).imp (fun h => ltIP_eq_true_iff.mp h)

/-- C9: the claim says malformed addresses fail with `BadAddress` and
out-of-range prefixes with `BadCIDR`. The code has no failure path at
all: `sscanf`'s return value is ignored, so `"10.0.0"` (three octets)
parses as `10.0.0.0/32`, and `"1.2.3.999"` (octet out of range) parses
as `1.2.3.231/32` — both silently accepted as networks. -/
theorem c9_malformed_accepted_eval :
    IPNetwork.fromCIDR "10.0.0".data = ⟨167772160, 32⟩ ∧
    IPNetwork.fromCIDR "1.2.3.999".data = ⟨16909287, 32⟩ := by decide

/-- C10: the `overlaps` predicate is symmetric for all `IPNetwork`
values, canonical or not: its three disjuncts map to each other under
swapping the arguments. -/
theorem c10_overlaps_symmetric (a b : IPNetwork) : a.overlaps b = b.overlaps a := by
  simp only [IPNetwork.overlaps]
  apply decide_eq_decide.mpr
  constructor
  · rintro (h | h | h)
    · exact Or.inl h.symm
    · exact Or.inr (Or.inr h)
    · exact Or.inr (Or.inl h)
  · rintro (h | h | h)
    · exact Or.inl h.symm
    · exact Or.inr (Or.inr h)
    · exact Or.inr (Or.inl h)

end IPRanges
